import Mathlib

/-!
Shallow embedding of the parse_rs repository (src/token.rs, src/tokenizer.rs,
src/main.rs ast module).  Rust strings are modelled as lists of characters;
byte offsets use Char.utf8Size, matching Rust len_utf8.  The Unicode character
classes char::is_alphanumeric / char::is_numeric are modelled by their ASCII
restrictions (the properties checked here only involve ASCII data), and
char::is_whitespace by Char.isWhitespace.  Rust panics (todo!, unwrap, expect)
are modelled as an explicit panicked outcome.
-/

namespace ParseRs

/-- token.rs Location: line, column and byte index. -/
structure Location where
  line : Nat
  column : Nat
  index : Nat
deriving DecidableEq

/-- token.rs Location::zero. -/
def Location.zero : Location := ⟨0, 0, 0⟩

/-- token.rs Span; the Rust field named end is called stop here (keyword). -/
structure Span where
  start : Location
  stop : Location
deriving DecidableEq

/-- token.rs Span::len: byte length. -/
def Span.len (s : Span) : Nat := s.stop.index - s.start.index

/-- token.rs Token; Cow content is modelled as the list of characters.  The
borrowed/owned distinction of Cow does not affect any property checked here. -/
structure Token where
  span : Span
  content : List Char
deriving DecidableEq

/-- token.rs Error. -/
structure Error where
  message : String
  location : Location
deriving DecidableEq

/-- tokenizer.rs Tokenizer::adv: advance a location over one character. -/
def adv (l : Location) (c : Char) : Location :=
  if c = '\n' then ⟨l.line + 1, 0, l.index + c.utf8Size⟩
  else ⟨l.line, l.column + 1, l.index + c.utf8Size⟩

/-- Tokenizer state.  source is the full input; loc is the cursor location.
rest caches the Rust view source[loc.index..] so that character scanning
does not have to re-slice by byte offset; the invariant is that rest is the
suffix of source whose first byte is at offset loc.index. -/
structure Tokenizer where
  source : List Char
  rest : List Char
  loc : Location
deriving DecidableEq

/-- Tokenizer::new. -/
def mkTok (s : String) : Tokenizer := ⟨s.data, s.data, Location.zero⟩

/-- Total byte length of a character list (str::len). -/
def utf8Len : List Char → Nat
  | [] => 0
  | c :: cs => c.utf8Size + utf8Len cs

/-- Byte-indexed drop, modelling the slice source[n..]. -/
def dropBytes : Nat → List Char → List Char
  | 0, l => l
  | _ + 1, [] => []
  | n + 1, c :: cs => dropBytes (n + 1 - c.utf8Size) cs

/-- Byte-indexed take, modelling the slice source[..n]. -/
def takeBytes : Nat → List Char → List Char
  | 0, _ => []
  | _ + 1, [] => []
  | n + 1, c :: cs => c :: takeBytes (n + 1 - c.utf8Size) cs

/-- tokenizer.rs shimmy helper: skip whitespace, tracking the location. -/
def skipWs : List Char → Location → List Char × Location
  | [], l => ([], l)
  | c :: cs, l => if c.isWhitespace then skipWs cs (adv l c) else (c :: cs, l)

/-- Tokenizer::shimmy: skip leading whitespace, mutating the cursor. -/
def shimmy (st : Tokenizer) : Tokenizer :=
  { st with rest := (skipWs st.rest st.loc).1, loc := (skipWs st.rest st.loc).2 }

/-- Tokenizer::location: shimmy, then read the cursor location. -/
def location (st : Tokenizer) : Location × Tokenizer :=
  ((shimmy st).loc, shimmy st)

/-- Tokenizer::cursor: shimmy, then the remaining text. -/
def cursor (st : Tokenizer) : List Char × Tokenizer :=
  ((shimmy st).rest, shimmy st)

/-- Tokenizer::has_more_tokens. -/
def has_more_tokens (st : Tokenizer) : Bool × Tokenizer :=
  (!(shimmy st).rest.isEmpty, shimmy st)

/-- Tokenizer::peek. -/
def peek (st : Tokenizer) : Option Char × Tokenizer :=
  ((shimmy st).rest.head?, shimmy st)

/-- Tokenizer::cursor_for: pure slice of the source at a location. -/
def cursor_for (st : Tokenizer) (l : Location) : Option (List Char) :=
  if l.index < utf8Len st.source then some (dropBytes l.index st.source) else none

/-- Tokenizer::lex_for: pure slice of the source described by a span. -/
def lex_for (st : Tokenizer) (sp : Span) : Option (List Char) :=
  match cursor_for st sp.start with
  | none => none
  | some cur => if sp.len ≤ utf8Len cur then some (takeBytes sp.len cur) else none

/-- Tokenizer::peek_while. -/
def peek_while (f : Char → Bool) (st : Tokenizer) : Option Span × Tokenizer :=
  let st1 := shimmy st
  let stop := (st1.rest.takeWhile f).foldl adv st1.loc
  (if st1.loc = stop then none else some ⟨st1.loc, stop⟩, st1)

/-- Tokenizer::peek_word. -/
def peek_word (st : Tokenizer) : Option Span × Tokenizer :=
  peek_while (fun c => !c.isWhitespace) st

/-- The character loop of Tokenizer::peek_str: the zip of the remaining text
with the literal.  The zip stops as soon as either side is exhausted, so a
literal longer than the remaining input can still report an end location. -/
def zipScan : List Char → List Char → Location → Option Location
  | [], _, e => some e
  | _, [], e => some e
  | a :: as, b :: bs, e => if a = b then zipScan as bs (adv e a) else none

/-- Tokenizer::peek_str. -/
def peek_str (s : List Char) (st : Tokenizer) : Option Span × Tokenizer :=
  let st1 := shimmy st
  match zipScan st1.rest s st1.loc with
  | none => (none, st1)
  | some stop => (if st1.loc = stop then none else some ⟨st1.loc, stop⟩, st1)

/-- Result of a consuming scan: Rust Option plus an explicit panic outcome
for the unwrap/expect calls inside the consume operations. -/
inductive Scan (α : Type) where
  | found : α → Scan α
  | absent : Scan α
  | panicked : String → Scan α
deriving DecidableEq

/-- Tokenizer::consume.  The end location is advanced over the whole literal
(even past the end of input, as in the Rust source); lex_for then checks the
span against the source and the unwrap panics when it does not fit.  rest is
the byte suffix at the new location (empty if the location overshoots). -/
def consume (s : List Char) (st : Tokenizer) : Scan Token × Tokenizer :=
  match peek_str s st with
  | (none, st1) => (.absent, st1)
  | (some _, st1) =>
    let stop := s.foldl adv st1.loc
    let st2 : Tokenizer := { st1 with loc := stop, rest := st1.rest.drop s.length }
    let sp : Span := ⟨st1.loc, stop⟩
    match lex_for st2 sp with
    | some content => (.found ⟨sp, content⟩, st2)
    | none => (.panicked "Option unwrap failed", st2)

/-- Tokenizer::consume_while. -/
def consume_while (f : Char → Bool) (st : Tokenizer) : Scan Token × Tokenizer :=
  let st1 := shimmy st
  let stop := (st1.rest.takeWhile f).foldl adv st1.loc
  if st1.loc = stop then (.absent, st1)
  else
    let st2 : Tokenizer := { st1 with loc := stop, rest := st1.rest.dropWhile f }
    match lex_for st2 ⟨st1.loc, stop⟩ with
    | some content => (.found ⟨⟨st1.loc, stop⟩, content⟩, st2)
    | none => (.panicked "this should be unreachable", st2)

/-- The character loop of Tokenizer::word_span: match the literal
character-for-character, returning the end location and the remaining text. -/
def wordScan : List Char → List Char → Location → Option (Location × List Char)
  | [], rest, e => some (e, rest)
  | _ :: _, [], _ => none
  | c :: cs, o :: os, e => if c = o then wordScan cs os (adv e c) else none

/-- Tokenizer::word_span: literal match plus word-boundary check. -/
def word_span (s : List Char) (st : Tokenizer) : Option Span × Tokenizer :=
  let st1 := shimmy st
  match wordScan s st1.rest st1.loc with
  | none => (none, st1)
  | some (stop, rem) =>
    match rem.head? with
    | some c => if !c.isWhitespace then (none, st1) else (some ⟨st1.loc, stop⟩, st1)
    | none => (some ⟨st1.loc, stop⟩, st1)

/-- Tokenizer::match_word. -/
def match_word (s : List Char) (st : Tokenizer) : Bool × Tokenizer :=
  match word_span s st with
  | (o, st1) => (o.isSome, st1)

/-- Tokenizer::consume_word. -/
def consume_word (s : List Char) (st : Tokenizer) : Scan Token × Tokenizer :=
  match word_span s st with
  | (none, st1) => (.absent, st1)
  | (some sp, st1) =>
    let st2 : Tokenizer := { st1 with loc := sp.stop, rest := st1.rest.drop s.length }
    match lex_for st2 sp with
    | some content => (.found ⟨sp, content⟩, st2)
    | none => (.panicked "Option unwrap failed", st2)

/-- Parser outcome: Rust Result of T and Option Error - ok is Ok, noMatch is
Err(None), fatal is Err(Some(error)) - plus an explicit panic outcome. -/
inductive PResult (α : Type) where
  | ok : α → PResult α
  | noMatch : PResult α
  | fatal : Error → PResult α
  | panicked : String → PResult α
deriving DecidableEq

/-- Tokenizer::expect: consume or construct an Error at the pre-consume
location.  The Rust message interpolates the literal; the exact text is not
relied on by any theorem below. -/
def expect (s : List Char) (st : Tokenizer) : PResult Token × Tokenizer :=
  let start := (location st).1
  match consume s (location st).2 with
  | (.found t, st2) => (.ok t, st2)
  | (.absent, st2) => (.fatal ⟨"Expected " ++ String.mk s, start⟩, st2)
  | (.panicked m, st2) => (.panicked m, st2)

/-- True on the hard-failure outcome only. -/
def is_hard_failure : PResult α → Bool
  | .fatal _ => true
  | _ => false

/-- True on the panic outcome only. -/
def is_panicked_scan : Scan α → Bool
  | .panicked _ => true
  | _ => false

/- main.rs ast::Type / ast::FnType.  Type is a Lean keyword, so the type
enum is named Ty; FnType keeps its fields args and ret via accessors. -/
mutual
inductive Ty where
  | name : Token → Ty
  | ptr : Ty → Ty
  | func : FnType → Ty

inductive FnType where
  | mk : List Ty → Option Ty → FnType
end

/-- FnType args field. -/
def FnType.args : FnType → List Ty
  | .mk a _ => a

/-- FnType ret field. -/
def FnType.ret : FnType → Option Ty
  | .mk _ r => r

/-- main.rs ast::Expr. -/
inductive Expr where
  | num : Token → Expr
  | str : Token → Expr
  | name : Token → Expr
  | add : Expr → Expr → Expr
  | sub : Expr → Expr → Expr
  | lt : Expr → Expr → Expr

/- main.rs ast::Stmt / ast::If / ast::Block. -/
mutual
inductive Stmt where
  | ifStmt : If → Stmt
  | ret : Expr → Stmt
  | block : Block → Stmt

inductive If where
  | mk : Expr → Block → Option Block → If

inductive Block where
  | mk : Token → List Stmt → Token → Block
end

/-- main.rs ast::Func. -/
structure Func where
  ty : FnType
  body : Block

/-- main.rs ast::Decl. -/
inductive Decl where
  | func : Token → Func → Decl

/-- main.rs ast::char_is_ident (is_alphanumeric modelled on ASCII). -/
def char_is_ident (c : Char) : Bool := c.isAlphanum || c = '_'

/-- The numeric-literal predicate of parse_expr_primary (is_numeric modelled
on ASCII digits). -/
def char_is_num (c : Char) : Bool := c.isDigit || c = '_'

/-- main.rs ast::required: the map_err combinator that upgrades a no-match
into a fatal Error at the tokenizer's current (whitespace-skipped) location;
an existing fatal error or panic passes through unchanged. -/
def required (msg : String) : PResult α × Tokenizer → PResult α × Tokenizer
  | (.ok a, st) => (.ok a, st)
  | (.noMatch, st) => (.fatal ⟨msg, (location st).1⟩, (location st).2)
  | (.fatal e, st) => (.fatal e, st)
  | (.panicked m, st) => (.panicked m, st)

/-- main.rs ast::parse_expr: the body is todo!(), an unconditional panic. -/
def parse_expr (_fuel : Nat) (st : Tokenizer) : PResult Expr × Tokenizer :=
  (.panicked "not yet implemented", st)

/-- Rust char::is_digit(c, 16): a hexadecimal digit. -/
def is_hex_digit (c : Char) : Bool :=
  c.isDigit || ('a' ≤ c && c ≤ 'f') || ('A' ≤ c && c ≤ 'F')

/-- Value of a hexadecimal digit. -/
def hex_val (c : Char) : Nat :=
  if c.isDigit then c.toNat - '0'.toNat
  else if 'a' ≤ c then c.toNat - 'a'.toNat + 10
  else c.toNat - 'A'.toNat + 10

/-- u32::from_str_radix for radix 16: none models the Err case (empty slice
or a non-digit character), which the Rust code unwraps. -/
def from_str_radix_16 (s : List Char) : Option Nat :=
  if s.isEmpty || s.any (fun c => !is_hex_digit c) then none
  else some (s.foldl (fun a c => a * 16 + hex_val c) 0)

/-- char::from_u32: none on surrogates and out-of-range values, which the
Rust code unwraps. -/
def char_from_u32 (n : Nat) : Option Char :=
  if n < 0xd800 || (0xe000 ≤ n && n < 0x110000) then some (Char.ofNat n) else none

/-- Result of the radix_escape helper inside parse_expr_str. -/
inductive EscRes where
  | done : Char → List Char → Location → EscRes
  | failed : Error → EscRes
  | crashed : String → EscRes

/-- The digit-consuming loop of radix_escape: exactly count digits of the
radix (only radix 16 is ever used). -/
def radixDigits : Nat → List Char → Location → Except Error (List Char × Location)
  | 0, cur, l => .ok (cur, l)
  | k + 1, cur, l =>
    match cur with
    | c :: rest =>
      if is_hex_digit c then radixDigits k rest (adv l c)
      else .error ⟨"Expected radix digit", l⟩
    | [] => .error ⟨"Expected radix digit", l⟩

/-- main.rs radix_escape (inside parse_expr_str): a braced fixed-count digit
sequence, decoded by re-slicing the source between the recorded locations.
The braces are written via Char.ofNat 123 / 125. -/
def radix_escape (count : Nat) (cur : List Char) (l : Location) (src : List Char) : EscRes :=
  match cur with
  | [] => .failed ⟨"Expected opening brace", l⟩
  | c :: rest =>
    if c ≠ Char.ofNat 123 then .failed ⟨"Expected opening brace", l⟩
    else
      let l1 := adv l (Char.ofNat 123)
      match radixDigits count rest l1 with
      | .error e => .failed e
      | .ok (rest2, l2) =>
        match rest2 with
        | [] => .failed ⟨"Expected closing brace", l2⟩
        | c2 :: rest3 =>
          if c2 ≠ Char.ofNat 125 then .failed ⟨"Expected closing brace", l2⟩
          else
            let l3 := adv l2 (Char.ofNat 125)
            let digits := takeBytes (l2.index - l1.index) (dropBytes l1.index src)
            match from_str_radix_16 digits with
            | none => .crashed "Result unwrap failed"
            | some v =>
              match char_from_u32 v with
              | none => .crashed "Option unwrap failed"
              | some ch => .done ch rest3 l3

/-- Result of the scanning loop of parse_expr_str. -/
inductive StrStep where
  | finished : Option (List Char) → Location → Location → Bool → StrStep
  | failed : Error → StrStep
  | crashed : String → StrStep

/-- The while-let loop of parse_expr_str over the character iterator.  The
arguments mirror the Rust locals: the iterator remainder, the optional decoded
accumulator, content_start and end.  Note the loop advances end only for the
character after a backslash (and inside radix_escape) - exactly as the source
does.  Fuel only bounds the iteration count. -/
def strLoop (tk : Tokenizer) : Nat → List Char → Option (List Char) → Location → Location → StrStep
  | 0, _, _, _, _ => .crashed "fuel"
  | fuel + 1, cur, content, contentStart, endLoc =>
    match cur with
    | [] => .finished content contentStart endLoc false
    | c :: rest =>
      if c = '\r' || c = '\n' then .failed ⟨"unterminated string", endLoc⟩
      else if c = '"' then .finished content contentStart endLoc true
      else if c ≠ '\\' then
        strLoop tk fuel rest (content.map (fun l => l ++ [c])) contentStart endLoc
      else
        match rest with
        | [] => .finished content contentStart endLoc false
        | c2 :: rest2 =>
          let endLoc2 := adv endLoc c2
          match lex_for tk ⟨contentStart, endLoc2⟩ with
          | none => .crashed "span is invalid"
          | some segment =>
            let acc := content.getD [] ++ segment
            if c2 = 'n' then strLoop tk fuel rest2 (some (acc ++ ['\n'])) endLoc2 endLoc2
            else if c2 = 'r' then strLoop tk fuel rest2 (some (acc ++ ['\r'])) endLoc2 endLoc2
            else if c2 = 't' then strLoop tk fuel rest2 (some (acc ++ ['\t'])) endLoc2 endLoc2
            else if c2 = '\\' then strLoop tk fuel rest2 (some (acc ++ ['\\'])) endLoc2 endLoc2
            else if c2 = '"' then strLoop tk fuel rest2 (some (acc ++ ['"'])) endLoc2 endLoc2
            else if c2 = 'u' then
              match radix_escape 4 rest2 endLoc2 tk.source with
              | .done ch rest3 endLoc3 => strLoop tk fuel rest3 (some (acc ++ [ch])) endLoc3 endLoc3
              | .failed e => .failed e
              | .crashed m => .crashed m
            else if c2 = 'x' then
              match radix_escape 2 rest2 endLoc2 tk.source with
              | .done ch rest3 endLoc3 => strLoop tk fuel rest3 (some (acc ++ [ch])) endLoc3 endLoc3
              | .failed e => .failed e
              | .crashed m => .crashed m
            else .crashed "not yet implemented: error"

/-- main.rs ast::parse_expr_str.  Note the Rust function reads characters
through a local iterator and never commits the tokenizer cursor: the returned
state is the shimmied input state in every outcome. -/
def parse_expr_str (fuel : Nat) (st : Tokenizer) : PResult Token × Tokenizer :=
  match peek_str ['"'] st with
  | (none, st0) => (.noMatch, st0)
  | (some _, st0) =>
    let start := st0.loc
    let e1 := adv start '"'
    match strLoop st0 fuel (st0.rest.drop 1) none e1 e1 with
    | .crashed m => (.panicked m, st0)
    | .failed e => (.fatal e, st0)
    | .finished content contentStart endLoc terminated =>
      if !terminated then (.fatal ⟨"Expected closing quote", endLoc⟩, st0)
      else
        match lex_for st0 ⟨contentStart, endLoc⟩ with
        | none => (.panicked "source for span failed", st0)
        | some substring =>
          (.ok ⟨⟨start, endLoc⟩, content.getD [] ++ substring⟩, st0)

/-- main.rs ast::parse_expr_primary. -/
def parse_expr_primary (fuel : Nat) (st : Tokenizer) : PResult Expr × Tokenizer :=
  match consume_while char_is_num st with
  | (.found num, st1) => (.ok (.num num), st1)
  | (.panicked m, st1) => (.panicked m, st1)
  | (.absent, st1) =>
    match parse_expr_str fuel st1 with
    | (.ok s, st2) => (.ok (.str s), st2)
    | (.noMatch, st2) => (.noMatch, st2)
    | (.fatal e, st2) => (.fatal e, st2)
    | (.panicked m, st2) => (.panicked m, st2)

/-- The operator loop of parse_expr_term (binary_impl for + and -). -/
def parse_expr_term_loop : Nat → Expr → Tokenizer → PResult Expr × Tokenizer
  | 0, _, st => (.panicked "fuel", st)
  | fuel + 1, out, st =>
    match consume ['+'] st with
    | (.panicked m, st1) => (.panicked m, st1)
    | (.found _, st1) =>
      match required "expected binary expression: + or -" (parse_expr_primary fuel st1) with
      | (.ok rhs, st2) => parse_expr_term_loop fuel (.add out rhs) st2
      | (.noMatch, st2) => (.noMatch, st2)
      | (.fatal e, st2) => (.fatal e, st2)
      | (.panicked m, st2) => (.panicked m, st2)
    | (.absent, st1) =>
      match consume ['-'] st1 with
      | (.panicked m, st2) => (.panicked m, st2)
      | (.found _, st2) =>
        match required "expected binary expression: + or -" (parse_expr_primary fuel st2) with
        | (.ok rhs, st3) => parse_expr_term_loop fuel (.sub out rhs) st3
        | (.noMatch, st3) => (.noMatch, st3)
        | (.fatal e, st3) => (.fatal e, st3)
        | (.panicked m, st3) => (.panicked m, st3)
      | (.absent, st2) => (.ok out, st2)

/-- main.rs parse_expr_term (generated by binary_impl). -/
def parse_expr_term (fuel : Nat) (st : Tokenizer) : PResult Expr × Tokenizer :=
  match parse_expr_primary fuel st with
  | (.ok out, st1) => parse_expr_term_loop fuel out st1
  | (.noMatch, st1) => (.noMatch, st1)
  | (.fatal e, st1) => (.fatal e, st1)
  | (.panicked m, st1) => (.panicked m, st1)

/-- The operator loop of parse_expr_cmp (binary_impl for the comparison). -/
def parse_expr_cmp_loop : Nat → Expr → Tokenizer → PResult Expr × Tokenizer
  | 0, _, st => (.panicked "fuel", st)
  | fuel + 1, out, st =>
    match consume ['<'] st with
    | (.panicked m, st1) => (.panicked m, st1)
    | (.found _, st1) =>
      match required "expected binary expression: <" (parse_expr_term fuel st1) with
      | (.ok rhs, st2) => parse_expr_cmp_loop fuel (.lt out rhs) st2
      | (.noMatch, st2) => (.noMatch, st2)
      | (.fatal e, st2) => (.fatal e, st2)
      | (.panicked m, st2) => (.panicked m, st2)
    | (.absent, st1) => (.ok out, st1)

/-- main.rs parse_expr_cmp (generated by binary_impl). -/
def parse_expr_cmp (fuel : Nat) (st : Tokenizer) : PResult Expr × Tokenizer :=
  match parse_expr_term fuel st with
  | (.ok out, st1) => parse_expr_cmp_loop fuel out st1
  | (.noMatch, st1) => (.noMatch, st1)
  | (.fatal e, st1) => (.fatal e, st1)
  | (.panicked m, st1) => (.panicked m, st1)

/-- The star-suffix loop of parse_type: each consumed star wraps the type in
one more pointer level. -/
def parse_type_stars : Nat → Ty → Tokenizer → PResult Ty × Tokenizer
  | 0, _, st => (.panicked "fuel", st)
  | fuel + 1, t, st =>
    match consume ['*'] st with
    | (.found _, st1) => parse_type_stars fuel (.ptr t) st1
    | (.absent, st1) => (.ok t, st1)
    | (.panicked m, st1) => (.panicked m, st1)

/- main.rs ast::parse_type / ast::parse_fn_type.  The while loop collecting
the comma-separated arguments of parse_fn_type is the helper parse_fn_args.
The mutual recursion (a function type argument may itself be a function type)
is bounded by fuel; running out of fuel is reported as a panic outcome and
never happens at the fuel values used below. -/
mutual
def parse_type : Nat → Tokenizer → PResult Ty × Tokenizer
  | 0, st => (.panicked "fuel", st)
  | fuel + 1, st =>
    match parse_fn_type fuel st with
    | (.ok f, st1) => (.ok (.func f), st1)
    | (.fatal e, st1) => (.fatal e, st1)
    | (.panicked m, st1) => (.panicked m, st1)
    | (.noMatch, st1) =>
      match consume_while char_is_ident st1 with
      | (.found w, st2) => parse_type_stars fuel (.name w) st2
      | (.absent, st2) => (.noMatch, st2)
      | (.panicked m, st2) => (.panicked m, st2)

def parse_fn_type : Nat → Tokenizer → PResult FnType × Tokenizer
  | 0, st => (.panicked "fuel", st)
  | fuel + 1, st =>
    match consume ['('] st with
    | (.absent, st1) => (.noMatch, st1)
    | (.panicked m, st1) => (.panicked m, st1)
    | (.found _, st1) =>
      match parse_fn_args fuel [] st1 with
      | (.ok args, st2) =>
        match expect [')'] st2 with
        | (.ok _, st3) =>
          match parse_type fuel st3 with
          | (.ok r, st4) => (.ok (.mk args (some r)), st4)
          | (.noMatch, st4) => (.ok (.mk args none), st4)
          | (.fatal e, st4) => (.fatal e, st4)
          | (.panicked m, st4) => (.panicked m, st4)
        | (.fatal e, st3) => (.fatal e, st3)
        | (.noMatch, st3) => (.noMatch, st3)
        | (.panicked m, st3) => (.panicked m, st3)
      | (.noMatch, st2) => (.noMatch, st2)
      | (.fatal e, st2) => (.fatal e, st2)
      | (.panicked m, st2) => (.panicked m, st2)

def parse_fn_args : Nat → List Ty → Tokenizer → PResult (List Ty) × Tokenizer
  | 0, _, st => (.panicked "fuel", st)
  | fuel + 1, args, st =>
    match has_more_tokens st with
    | (false, st1) => (.ok args, st1)
    | (true, st1) =>
      match peek_str [')'] st1 with
      | (some _, st2) => (.ok args, st2)
      | (none, st2) =>
        match required "expected type" (parse_type fuel st2) with
        | (.ok arg, st3) =>
          match consume [','] st3 with
          | (.found _, st4) => parse_fn_args fuel (args ++ [arg]) st4
          | (.absent, st4) => (.ok (args ++ [arg]), st4)
          | (.panicked m, st4) => (.panicked m, st4)
        | (.fatal e, st3) => (.fatal e, st3)
        | (.noMatch, st3) => (.noMatch, st3)
        | (.panicked m, st3) => (.panicked m, st3)
end

/- main.rs ast::parse_stmt / ast::parse_if / ast::parse_block.  The while
loop collecting the statements of a block is the helper parse_block_items.
Note parse_block consumes a closing brace as its opening delimiter, exactly
as the Rust source does. -/
mutual
def parse_stmt : Nat → Tokenizer → PResult Stmt × Tokenizer
  | 0, st => (.panicked "fuel", st)
  | fuel + 1, st =>
    match parse_block fuel st with
    | (.ok b, st1) => (.ok (.block b), st1)
    | (.fatal e, st1) => (.fatal e, st1)
    | (.panicked m, st1) => (.panicked m, st1)
    | (.noMatch, st1) =>
      match parse_if fuel st1 with
      | (.ok i, st2) => (.ok (.ifStmt i), st2)
      | (.noMatch, st2) => (.noMatch, st2)
      | (.fatal e, st2) => (.fatal e, st2)
      | (.panicked m, st2) => (.panicked m, st2)

def parse_if : Nat → Tokenizer → PResult If × Tokenizer
  | 0, st => (.panicked "fuel", st)
  | fuel + 1, st =>
    match consume_word ['i', 'f'] st with
    | (.absent, st1) => (.noMatch, st1)
    | (.panicked m, st1) => (.panicked m, st1)
    | (.found _, st1) =>
      match required "Expected condition" (parse_expr fuel st1) with
      | (.ok condition, st2) =>
        match required "expected block" (parse_block fuel st2) with
        | (.ok thenB, st3) =>
          match consume_word ['e', 'l', 's', 'e'] st3 with
          | (.found _, st4) =>
            match required "expected block" (parse_block fuel st4) with
            | (.ok elseB, st5) => (.ok (.mk condition thenB (some elseB)), st5)
            | (.noMatch, st5) => (.noMatch, st5)
            | (.fatal e, st5) => (.fatal e, st5)
            | (.panicked m, st5) => (.panicked m, st5)
          | (.absent, st4) => (.ok (.mk condition thenB none), st4)
          | (.panicked m, st4) => (.panicked m, st4)
        | (.noMatch, st3) => (.noMatch, st3)
        | (.fatal e, st3) => (.fatal e, st3)
        | (.panicked m, st3) => (.panicked m, st3)
      | (.noMatch, st2) => (.noMatch, st2)
      | (.fatal e, st2) => (.fatal e, st2)
      | (.panicked m, st2) => (.panicked m, st2)

def parse_block : Nat → Tokenizer → PResult Block × Tokenizer
  | 0, st => (.panicked "fuel", st)
  | fuel + 1, st =>
    match consume [Char.ofNat 125] st with
    | (.absent, st1) => (.noMatch, st1)
    | (.panicked m, st1) => (.panicked m, st1)
    | (.found left, st1) =>
      match parse_block_items fuel [] st1 with
      | (.ok items, st2) =>
        match expect [Char.ofNat 125] st2 with
        | (.ok right, st3) => (.ok (.mk left items right), st3)
        | (.fatal e, st3) => (.fatal e, st3)
        | (.noMatch, st3) => (.noMatch, st3)
        | (.panicked m, st3) => (.panicked m, st3)
      | (.noMatch, st2) => (.noMatch, st2)
      | (.fatal e, st2) => (.fatal e, st2)
      | (.panicked m, st2) => (.panicked m, st2)

def parse_block_items : Nat → List Stmt → Tokenizer → PResult (List Stmt) × Tokenizer
  | 0, _, st => (.panicked "fuel", st)
  | fuel + 1, items, st =>
    match has_more_tokens st with
    | (false, st1) => (.ok items, st1)
    | (true, st1) =>
      match peek_str [Char.ofNat 125] st1 with
      | (some _, st2) => (.ok items, st2)
      | (none, st2) =>
        match required "Expected statement in block!" (parse_stmt fuel st2) with
        | (.ok item, st3) => parse_block_items fuel (items ++ [item]) st3
        | (.fatal e, st3) => (.fatal e, st3)
        | (.noMatch, st3) => (.noMatch, st3)
        | (.panicked m, st3) => (.panicked m, st3)
end

/-- main.rs ast::parse_decl: an identifier, then (if an opening parenthesis
follows) a required function type and a required block body.  When the
identifier is present but no parenthesis follows, the Rust source returns
Err(None), the no-match outcome. -/
def parse_decl : Nat → Tokenizer → PResult Decl × Tokenizer
  | 0, st => (.panicked "fuel", st)
  | fuel + 1, st =>
    match consume_while char_is_ident st with
    | (.absent, st1) => (.noMatch, st1)
    | (.panicked m, st1) => (.panicked m, st1)
    | (.found name, st1) =>
      match peek_str ['('] st1 with
      | (none, st2) => (.noMatch, st2)
      | (some _, st2) =>
        match required "expected function type" (parse_fn_type fuel st2) with
        | (.ok ty, st3) =>
          match required "expected function body" (parse_block fuel st3) with
          | (.ok body, st4) => (.ok (.func name ⟨ty, body⟩), st4)
          | (.noMatch, st4) => (.noMatch, st4)
          | (.fatal e, st4) => (.fatal e, st4)
          | (.panicked m, st4) => (.panicked m, st4)
        | (.noMatch, st3) => (.noMatch, st3)
        | (.fatal e, st3) => (.fatal e, st3)
        | (.panicked m, st3) => (.panicked m, st3)

/-! Tokenizer-level lemmas: whitespace skipping is idempotent, peek-style
operations leave the state at the shimmied state, and consume-style
operations that fail to match do the same. -/

theorem skipWs_idem (r : List Char) (l : Location) :
    skipWs (skipWs r l).1 (skipWs r l).2 = skipWs r l := by
  induction r generalizing l with
  | nil => rfl
  | cons c cs ih =>
    by_cases h : c.isWhitespace
    · simp only [skipWs, h, if_true]
      exact ih (adv l c)
    · simp [skipWs, h]

theorem shimmy_shimmy (st : Tokenizer) : shimmy (shimmy st) = shimmy st := by
  simp only [shimmy]
  have h := skipWs_idem st.rest st.loc
  simp [h]

theorem location_state (st : Tokenizer) : (location st).2 = shimmy st := rfl

theorem cursor_state (st : Tokenizer) : (cursor st).2 = shimmy st := rfl

theorem has_more_tokens_state (st : Tokenizer) : (has_more_tokens st).2 = shimmy st := rfl

theorem peek_state (st : Tokenizer) : (peek st).2 = shimmy st := rfl

theorem peek_while_state (f : Char → Bool) (st : Tokenizer) :
    (peek_while f st).2 = shimmy st := rfl

theorem peek_word_state (st : Tokenizer) : (peek_word st).2 = shimmy st := rfl

theorem peek_str_state (s : List Char) (st : Tokenizer) : (peek_str s st).2 = shimmy st := by
  simp only [peek_str]
  split <;> rfl

theorem word_span_state (s : List Char) (st : Tokenizer) : (word_span s st).2 = shimmy st := by
  simp only [word_span]
  split
  · rfl
  · split
    · split <;> rfl
    · rfl

theorem match_word_state (s : List Char) (st : Tokenizer) : (match_word s st).2 = shimmy st := by
  unfold match_word
  split
  next o st1 heq =>
    have h := word_span_state s st
    rw [heq] at h
    exact h

theorem word_span_start (s : List Char) (st : Tokenizer) (sp : Span)
    (h : (word_span s st).1 = some sp) : sp.start = (shimmy st).loc := by
  simp only [word_span] at h
  split at h
  · simp at h
  · split at h
    · split at h
      · simp at h
      · simp only [Prod.fst] at h
        cases h
        rfl
    · simp only [Prod.fst] at h
      cases h
      rfl

theorem consume_absent (s : List Char) (st : Tokenizer)
    (h : (consume s st).1 = Scan.absent) : (consume s st).2 = shimmy st := by
  unfold consume at h ⊢
  split at h
  next st1 heq =>
    have hs := peek_str_state s st
    rw [heq] at hs
    simpa using hs
  next sp st1 heq =>
    simp only [] at h
    split at h <;> simp_all

theorem consume_found (s : List Char) (st : Tokenizer) (t : Token) (st' : Tokenizer)
    (h : consume s st = (Scan.found t, st')) :
    st'.loc = t.span.stop ∧ t.span.start = (shimmy st).loc := by
  unfold consume at h
  split at h
  next st1 heq => simp at h
  next sp st1 heq =>
    have hs := peek_str_state s st
    rw [heq] at hs
    simp only [] at h
    split at h
    next content hlex =>
      cases h
      exact ⟨rfl, by rw [← hs]⟩
    next hlex => simp at h

theorem consume_while_absent (f : Char → Bool) (st : Tokenizer)
    (h : (consume_while f st).1 = Scan.absent) : (consume_while f st).2 = shimmy st := by
  unfold consume_while at h ⊢
  simp only [] at h ⊢
  split at h
  next hc =>
    rw [if_pos hc]
  next hc =>
    rw [if_neg hc]
    split at h <;> simp_all

theorem consume_while_found (f : Char → Bool) (st : Tokenizer) (t : Token) (st' : Tokenizer)
    (h : consume_while f st = (Scan.found t, st')) :
    st'.loc = t.span.stop ∧ t.span.start = (shimmy st).loc := by
  unfold consume_while at h
  simp only [] at h
  split at h
  next hc => simp at h
  next hc =>
    split at h
    next content hlex =>
      cases h
      exact ⟨rfl, rfl⟩
    next hlex => simp at h

theorem consume_word_absent (s : List Char) (st : Tokenizer)
    (h : (consume_word s st).1 = Scan.absent) : (consume_word s st).2 = shimmy st := by
  unfold consume_word at h ⊢
  split at h
  next st1 heq =>
    have hs := word_span_state s st
    rw [heq] at hs
    exact hs
  next sp st1 heq =>
    simp only [] at h
    split at h <;> simp_all

theorem consume_word_found (s : List Char) (st : Tokenizer) (t : Token) (st' : Tokenizer)
    (h : consume_word s st = (Scan.found t, st')) :
    st'.loc = t.span.stop ∧ t.span.start = (shimmy st).loc := by
  unfold consume_word at h
  split at h
  next st1 heq => simp at h
  next sp st1 heq =>
    have hs := word_span_state s st
    have hstart : sp.start = (shimmy st).loc := by
      apply word_span_start s st
      rw [heq]
    rw [heq] at hs
    simp only [] at h
    split at h
    next content hlex =>
      cases h
      exact ⟨rfl, hstart⟩
    next hlex => simp at h

theorem required_not_noMatch (msg : String) (r : PResult α × Tokenizer) :
    (required msg r).1 ≠ PResult.noMatch := by
  obtain ⟨o, st⟩ := r
  cases o <;> simp [required]

theorem expect_not_noMatch (s : List Char) (st : Tokenizer) :
    (expect s st).1 ≠ PResult.noMatch := by
  unfold expect
  split <;> simp

/-! Parser-level lemmas.  The loops of parse_fn_type, parse_block and the
star suffix of parse_type can never report a no-match of their own, and a
rule that reports no-match leaves the tokenizer at the shimmied input state
(whitespace skipping is the only cursor movement). -/

theorem parse_type_stars_not_noMatch (n : Nat) (t : Ty) (st : Tokenizer) :
    (parse_type_stars n t st).1 ≠ PResult.noMatch := by
  induction n generalizing t st with
  | zero => simp [parse_type_stars]
  | succ m ih =>
    unfold parse_type_stars
    split
    · exact ih _ _
    · simp
    · simp

theorem parse_fn_args_not_noMatch (n : Nat) (args : List Ty) (st : Tokenizer) :
    (parse_fn_args n args st).1 ≠ PResult.noMatch := by
  induction n generalizing args st with
  | zero => simp [parse_fn_args]
  | succ m ih =>
    unfold parse_fn_args
    split
    · simp
    · split
      · simp
      · split
        next arg st3 heq =>
          split
          · exact ih _ _
          · simp
          · simp
        next e st3 heq => simp
        next st3 heq => exact absurd (by rw [heq]) (required_not_noMatch _ _)
        next m2 st3 heq => simp

theorem parse_block_items_not_noMatch (n : Nat) (items : List Stmt) (st : Tokenizer) :
    (parse_block_items n items st).1 ≠ PResult.noMatch := by
  induction n generalizing items st with
  | zero => simp [parse_block_items]
  | succ m ih =>
    unfold parse_block_items
    split
    · simp
    · split
      · simp
      · split
        next item st3 heq => exact ih _ _
        next e st3 heq => simp
        next st3 heq => exact absurd (by rw [heq]) (required_not_noMatch _ _)
        next m2 st3 heq => simp

theorem parse_fn_type_noMatch (n : Nat) (st : Tokenizer)
    (h : (parse_fn_type n st).1 = PResult.noMatch) : (parse_fn_type n st).2 = shimmy st := by
  cases n with
  | zero => simp [parse_fn_type] at h
  | succ m =>
    unfold parse_fn_type at h ⊢
    split at h
    next st1 heq =>
      have hc := consume_absent ['('] st (by rw [heq])
      rw [heq] at hc
      exact hc
    next mm st1 heq => simp at h
    next tk st1 heq =>
      split at h
      next args st2 heq2 =>
        split at h
        next t3 st3 heq3 =>
          split at h <;> simp_all
        next e st3 heq3 => simp at h
        next st3 heq3 => exact absurd (by rw [heq3]) (expect_not_noMatch _ _)
        next m3 st3 heq3 => simp at h
      next st2 heq2 => exact absurd (by rw [heq2]) (parse_fn_args_not_noMatch _ _ _)
      next e st2 heq2 => simp at h
      next m2 st2 heq2 => simp at h

theorem parse_type_noMatch (n : Nat) (st : Tokenizer)
    (h : (parse_type n st).1 = PResult.noMatch) : (parse_type n st).2 = shimmy st := by
  cases n with
  | zero => simp [parse_type] at h
  | succ m =>
    unfold parse_type at h ⊢
    split at h
    next f st1 heq => simp at h
    next e st1 heq => simp at h
    next mm st1 heq => simp at h
    next st1 heq =>
      have h1 : st1 = shimmy st := by
        have := parse_fn_type_noMatch m st (by rw [heq])
        rw [heq] at this
        exact this
      split at h
      next w st2 heq2 => exact absurd h (parse_type_stars_not_noMatch _ _ _)
      next st2 heq2 =>
        have h2 := consume_while_absent char_is_ident st1 (by rw [heq2])
        rw [heq2] at h2
        rw [h2, h1, shimmy_shimmy]
      next m2 st2 heq2 => simp at h

theorem parse_expr_str_noMatch (fuel : Nat) (st : Tokenizer)
    (h : (parse_expr_str fuel st).1 = PResult.noMatch) :
    (parse_expr_str fuel st).2 = shimmy st := by
  unfold parse_expr_str at h ⊢
  split at h
  next st0 heq =>
    have hs := peek_str_state ['"'] st
    rw [heq] at hs
    exact hs
  next sp st0 heq =>
    simp only [] at h
    split at h
    · simp at h
    · simp at h
    · split at h
      · simp at h
      · split at h <;> simp_all

theorem parse_expr_primary_noMatch (fuel : Nat) (st : Tokenizer)
    (h : (parse_expr_primary fuel st).1 = PResult.noMatch) :
    (parse_expr_primary fuel st).2 = shimmy st := by
  unfold parse_expr_primary at h ⊢
  split at h
  next num st1 heq => simp at h
  next m st1 heq => simp at h
  next st1 heq =>
    have h1 : st1 = shimmy st := by
      have := consume_while_absent char_is_num st (by rw [heq])
      rw [heq] at this
      exact this
    split at h
    next s2 st2 heq2 => simp at h
    next st2 heq2 =>
      have h2 := parse_expr_str_noMatch fuel st1 (by rw [heq2])
      rw [heq2] at h2
      rw [h2, h1, shimmy_shimmy]
    next e st2 heq2 => simp at h
    next m2 st2 heq2 => simp at h

theorem parse_block_noMatch (n : Nat) (st : Tokenizer)
    (h : (parse_block n st).1 = PResult.noMatch) : (parse_block n st).2 = shimmy st := by
  cases n with
  | zero => simp [parse_block] at h
  | succ m =>
    unfold parse_block at h ⊢
    split at h
    next st1 heq =>
      have hc := consume_absent [Char.ofNat 125] st (by rw [heq])
      rw [heq] at hc
      exact hc
    next mm st1 heq => simp at h
    next left st1 heq =>
      split at h
      next items st2 heq2 =>
        split at h
        next right st3 heq3 => simp at h
        next e st3 heq3 => simp at h
        next st3 heq3 => exact absurd (by rw [heq3]) (expect_not_noMatch _ _)
        next m3 st3 heq3 => simp at h
      next st2 heq2 => exact absurd (by rw [heq2]) (parse_block_items_not_noMatch _ _ _)
      next e st2 heq2 => simp at h
      next m2 st2 heq2 => simp at h

theorem parse_if_noMatch (n : Nat) (st : Tokenizer)
    (h : (parse_if n st).1 = PResult.noMatch) : (parse_if n st).2 = shimmy st := by
  cases n with
  | zero => simp [parse_if] at h
  | succ m =>
    unfold parse_if at h ⊢
    split at h
    next st1 heq =>
      have hc := consume_word_absent ['i', 'f'] st (by rw [heq])
      rw [heq] at hc
      exact hc
    next mm st1 heq => simp at h
    next tk st1 heq =>
      split at h
      next cond st2 heq2 =>
        split at h
        next thenB st3 heq3 =>
          split at h
          next tk4 st4 heq4 =>
            split at h
            next elseB st5 heq5 => simp at h
            next st5 heq5 => exact absurd (by rw [heq5]) (required_not_noMatch _ _)
            next e st5 heq5 => simp at h
            next m5 st5 heq5 => simp at h
          next st4 heq4 => simp at h
          next m4 st4 heq4 => simp at h
        next st3 heq3 => exact absurd (by rw [heq3]) (required_not_noMatch _ _)
        next e st3 heq3 => simp at h
        next m3 st3 heq3 => simp at h
      next st2 heq2 => exact absurd (by rw [heq2]) (required_not_noMatch _ _)
      next e st2 heq2 => simp at h
      next m2 st2 heq2 => simp at h

theorem parse_stmt_noMatch (n : Nat) (st : Tokenizer)
    (h : (parse_stmt n st).1 = PResult.noMatch) : (parse_stmt n st).2 = shimmy st := by
  cases n with
  | zero => simp [parse_stmt] at h
  | succ m =>
    unfold parse_stmt at h ⊢
    split at h
    next b st1 heq => simp at h
    next e st1 heq => simp at h
    next mm st1 heq => simp at h
    next st1 heq =>
      have h1 : st1 = shimmy st := by
        have := parse_block_noMatch m st (by rw [heq])
        rw [heq] at this
        exact this
      split at h
      next i st2 heq2 => simp at h
      next st2 heq2 =>
        have h2 := parse_if_noMatch m st1 (by rw [heq2])
        rw [heq2] at h2
        rw [h2, h1, shimmy_shimmy]
      next e st2 heq2 => simp at h
      next m2 st2 heq2 => simp at h

/-- Spec-side word predicate (the word-boundary contract of match_word): the
literal matches character-for-character at the given text and the character
immediately following the match is whitespace or end of input. -/
def isWordAt (s r : List Char) : Bool :=
  s.isPrefixOf r &&
    (match r.drop s.length with
     | [] => true
     | c :: _ => c.isWhitespace)

theorem wordScan_eq (s r : List Char) (l : Location) :
    wordScan s r l =
      if s.isPrefixOf r then some (s.foldl adv l, r.drop s.length) else none := by
  induction s generalizing r l with
  | nil => simp [wordScan, List.isPrefixOf]
  | cons c cs ih =>
    cases r with
    | nil => simp [wordScan, List.isPrefixOf]
    | cons o os =>
      by_cases h : c = o
      · subst h
        simp [wordScan, ih, List.isPrefixOf]
      · simp [wordScan, List.isPrefixOf, h, Ne.symm h]

theorem match_word_spec (s : List Char) (st : Tokenizer) :
    (match_word s st).1 = isWordAt s (shimmy st).rest := by
  unfold match_word word_span
  simp only [wordScan_eq]
  by_cases hp : s.isPrefixOf (shimmy st).rest
  · rw [if_pos hp]
    simp only []
    cases hd : (shimmy st).rest.drop s.length with
    | nil => simp [isWordAt, hp, hd]
    | cons c cs =>
      by_cases hw : c.isWhitespace
      · simp [isWordAt, hp, hd, hw]
      · simp [isWordAt, hp, hd, hw]
  · rw [if_neg hp]
    simp [isWordAt, hp]

/-- The byte slice source[sp.start.index .. sp.stop.index]. -/
def source_slice (src : List Char) (sp : Span) : List Char :=
  takeBytes sp.len (dropBytes sp.start.index src)

theorem lex_for_slice (st : Tokenizer) (sp : Span) (content : List Char)
    (h : lex_for st sp = some content) : content = source_slice st.source sp := by
  unfold lex_for at h
  split at h
  next heq => simp at h
  next cur heq =>
    split at h
    next hle =>
      cases h
      unfold cursor_for at heq
      split at heq
      next hlt =>
        cases heq
        rfl
      next hlt => simp at heq
    next hle => simp at h

theorem consume_found_content (s : List Char) (st : Tokenizer) (t : Token) (st' : Tokenizer)
    (h : consume s st = (Scan.found t, st')) : t.content = source_slice st.source t.span := by
  unfold consume at h
  split at h
  next st1 heq => simp at h
  next sp st1 heq =>
    have hs : st1 = shimmy st := by
      have hp := peek_str_state s st
      rw [heq] at hp
      exact hp
    subst hs
    simp only [] at h
    split at h
    next content hlex =>
      cases h
      have hc := lex_for_slice _ _ _ hlex
      rw [hc]
      rfl
    next hlex => simp at h

theorem consume_while_found_content (f : Char → Bool) (st : Tokenizer) (t : Token)
    (st' : Tokenizer) (h : consume_while f st = (Scan.found t, st')) :
    t.content = source_slice st.source t.span := by
  unfold consume_while at h
  simp only [] at h
  split at h
  next hc => simp at h
  next hc =>
    split at h
    next content hlex =>
      cases h
      have hcc := lex_for_slice _ _ _ hlex
      rw [hcc]
      rfl
    next hlex => simp at h

theorem consume_word_found_content (s : List Char) (st : Tokenizer) (t : Token)
    (st' : Tokenizer) (h : consume_word s st = (Scan.found t, st')) :
    t.content = source_slice st.source t.span := by
  unfold consume_word at h
  split at h
  next st1 heq => simp at h
  next sp st1 heq =>
    have hs : st1 = shimmy st := by
      have hp := word_span_state s st
      rw [heq] at hp
      exact hp
    subst hs
    simp only [] at h
    split at h
    next content hlex =>
      cases h
      have hc := lex_for_slice _ _ _ hlex
      rw [hc]
      rfl
    next hlex => simp at h

/-! The ten claims. -/

/-- C1 counterexample: on the source text consisting of the identifier foo
followed by a space and the letter x, the whitespace-skipped cursor begins
with an identifier that is not followed by an opening parenthesis, yet
parse_decl returns the no-match outcome, not a hard failure with an Error. -/
theorem c1_counterexample :
    (parse_decl 10 (mkTok "foo x")).1 = PResult.noMatch ∧
    is_hard_failure (parse_decl 10 (mkTok "foo x")).1 = false :=
  ⟨rfl, rfl⟩

/-- C1 (amended): whenever the whitespace-skipped cursor begins with an
identifier (consume_while char_is_ident finds a token) that is not then
followed by an opening parenthesis (peek_str fails), parse_decl returns the
no-match outcome Err(None) - not a hard failure. -/
theorem c1_decl_ident_without_paren_is_noMatch (n : Nat) (st : Tokenizer)
    (name : Token) (st1 : Tokenizer)
    (h1 : consume_while char_is_ident st = (Scan.found name, st1))
    (h2 : (peek_str ['('] st1).1 = none) :
    (parse_decl (n + 1) st).1 = PResult.noMatch := by
  cases hp : peek_str ['('] st1 with
  | mk o st2 =>
    have ho : o = none := by rw [hp] at h2; exact h2
    subst ho
    simp only [parse_decl, h1, hp]

/-- C1 witness: the amended theorem applied to the source text foo x. -/
theorem c1_witness : (parse_decl 1 (mkTok "foo x")).1 = PResult.noMatch :=
  c1_decl_ident_without_paren_is_noMatch 0 (mkTok "foo x")
    ⟨⟨⟨0, 0, 0⟩, ⟨0, 3, 3⟩⟩, ['f', 'o', 'o']⟩
    ⟨"foo x".data, [' ', 'x'], ⟨0, 3, 3⟩⟩ rfl rfl

/-- C2 counterexample: parse_decl on the source ab cd returns no-match but
has moved the cursor Location from the origin to byte index 3 (past the
identifier ab and the following space), so a no-match does not always leave
the cursor Location unchanged. -/
theorem c2_counterexample :
    (parse_decl 10 (mkTok "ab cd")).1 = PResult.noMatch ∧
    (parse_decl 10 (mkTok "ab cd")).2.loc = ⟨0, 3, 3⟩ ∧
    (mkTok "ab cd").loc = ⟨0, 0, 0⟩ ∧
    (⟨0, 3, 3⟩ : Location) ≠ (⟨0, 0, 0⟩ : Location) :=
  ⟨rfl, rfl, rfl, by decide⟩

/-- C2 (amended): for parse_type, parse_fn_type, parse_stmt, parse_if,
parse_block, parse_expr_primary and parse_expr_str, a no-match return leaves
the tokenizer exactly at the whitespace-skipped initial state: the cursor
moved only across leading whitespace.  (parse_decl is the exception: it can
consume an identifier before returning no-match, per the counterexample.) -/
theorem c2_noMatch_leaves_cursor_at_shimmy (n : Nat) (st : Tokenizer) :
    ((parse_type n st).1 = PResult.noMatch → (parse_type n st).2 = shimmy st) ∧
    ((parse_fn_type n st).1 = PResult.noMatch → (parse_fn_type n st).2 = shimmy st) ∧
    ((parse_stmt n st).1 = PResult.noMatch → (parse_stmt n st).2 = shimmy st) ∧
    ((parse_if n st).1 = PResult.noMatch → (parse_if n st).2 = shimmy st) ∧
    ((parse_block n st).1 = PResult.noMatch → (parse_block n st).2 = shimmy st) ∧
    ((parse_expr_primary n st).1 = PResult.noMatch → (parse_expr_primary n st).2 = shimmy st) ∧
    ((parse_expr_str n st).1 = PResult.noMatch → (parse_expr_str n st).2 = shimmy st) :=
  ⟨parse_type_noMatch n st, parse_fn_type_noMatch n st, parse_stmt_noMatch n st,
   parse_if_noMatch n st, parse_block_noMatch n st, parse_expr_primary_noMatch n st,
   parse_expr_str_noMatch n st⟩

/-- C2 witness: on the source consisting of a space and a plus sign, every
listed rule returns no-match and leaves the tokenizer at the shimmied
state. -/
theorem c2_witness :
    (parse_type 5 (mkTok " +")).2 = shimmy (mkTok " +") ∧
    (parse_fn_type 5 (mkTok " +")).2 = shimmy (mkTok " +") ∧
    (parse_stmt 5 (mkTok " +")).2 = shimmy (mkTok " +") ∧
    (parse_if 5 (mkTok " +")).2 = shimmy (mkTok " +") ∧
    (parse_block 5 (mkTok " +")).2 = shimmy (mkTok " +") ∧
    (parse_expr_primary 5 (mkTok " +")).2 = shimmy (mkTok " +") ∧
    (parse_expr_str 5 (mkTok " +")).2 = shimmy (mkTok " +") := by
  have h := c2_noMatch_leaves_cursor_at_shimmy 5 (mkTok " +")
  exact ⟨h.1 rfl, h.2.1 rfl, h.2.2.1 rfl, h.2.2.2.1 rfl, h.2.2.2.2.1 rfl,
    h.2.2.2.2.2.1 rfl, h.2.2.2.2.2.2 rfl⟩

/-- C3: the code can panic instead of returning one of the three outcomes.
parse_expr is an unconditional todo panic, so the condition position of
parse_if panics as well, and parse_expr_str panics on an escape character
outside the recognized set (here the escape backslash-z). -/
theorem c3_todo_panics :
    (parse_expr 5 (mkTok "1")).1 = PResult.panicked "not yet implemented" ∧
    (parse_if 5 (mkTok "if x")).1 = PResult.panicked "not yet implemented" ∧
    (parse_expr_str 100 (mkTok "\"\\z\"")).1 = PResult.panicked "not yet implemented: error" :=
  ⟨rfl, rfl, rfl⟩

/-- C4: on the source a, the literal ab makes the post-whitespace remaining
input a proper prefix of the literal; peek_str returns a Some span covering
just the matched prefix (the zip stops at the shorter side), and consume then
panics on the unwrap of lex_for, because the span it commits extends one byte
past the end of the source.  Neither primitive returns None. -/
theorem c4_prefix_scan_misbehaves :
    (peek_str ['a', 'b'] (mkTok "a")).1 = some ⟨⟨0, 0, 0⟩, ⟨0, 1, 1⟩⟩ ∧
    (consume ['a', 'b'] (mkTok "a")).1 = Scan.panicked "Option unwrap failed" :=
  ⟨rfl, rfl⟩

/-- C5 counterexample: parse_expr_str on the escape-free literal containing
Hello World! returns a token whose span is the byte range 0..1 and whose
content is empty, while the source slice of that span is the opening quote:
the content is not byte-identical to the source slice of the span (the
repository's own test expects the content Hello World! here). -/
theorem c5_counterexample :
    (parse_expr_str 100 (mkTok "\"Hello World!\"")).1 =
      PResult.ok ⟨⟨⟨0, 0, 0⟩, ⟨0, 1, 1⟩⟩, []⟩ ∧
    source_slice (mkTok "\"Hello World!\"").source ⟨⟨0, 0, 0⟩, ⟨0, 1, 1⟩⟩ = ['"'] ∧
    ([] : List Char) ≠ ['"'] :=
  ⟨rfl, rfl, by decide⟩

/-- C5 (amended): every token returned by consume, consume_while and
consume_word has content byte-identical to the source slice described by its
span; the guarantee does not extend to parse_expr_str (see the
counterexample). -/
theorem c5_consume_content_is_source_slice (s : List Char) (f : Char → Bool) (st : Tokenizer) :
    (∀ t st', consume s st = (Scan.found t, st') → t.content = source_slice st.source t.span) ∧
    (∀ t st', consume_while f st = (Scan.found t, st') →
      t.content = source_slice st.source t.span) ∧
    (∀ t st', consume_word s st = (Scan.found t, st') →
      t.content = source_slice st.source t.span) :=
  ⟨fun t st' h => consume_found_content s st t st' h,
   fun t st' h => consume_while_found_content f st t st' h,
   fun t st' h => consume_word_found_content s st t st' h⟩

/-- C5 witness: the amended theorem applied on the source text holding a
space then ab, for the literal a, the identifier predicate and the word
ab. -/
theorem c5_witness :
    (⟨⟨⟨0, 1, 1⟩, ⟨0, 2, 2⟩⟩, ['a']⟩ : Token).content =
      source_slice (mkTok " ab").source ⟨⟨0, 1, 1⟩, ⟨0, 2, 2⟩⟩ ∧
    (⟨⟨⟨0, 1, 1⟩, ⟨0, 3, 3⟩⟩, ['a', 'b']⟩ : Token).content =
      source_slice (mkTok " ab").source ⟨⟨0, 1, 1⟩, ⟨0, 3, 3⟩⟩ ∧
    (⟨⟨⟨0, 1, 1⟩, ⟨0, 3, 3⟩⟩, ['a', 'b']⟩ : Token).content =
      source_slice (mkTok " ab").source ⟨⟨0, 1, 1⟩, ⟨0, 3, 3⟩⟩ := by
  have h := c5_consume_content_is_source_slice ['a'] char_is_ident (mkTok " ab")
  have h2 := c5_consume_content_is_source_slice ['a', 'b'] char_is_ident (mkTok " ab")
  exact ⟨h.1 ⟨⟨⟨0, 1, 1⟩, ⟨0, 2, 2⟩⟩, ['a']⟩ ⟨" ab".data, ['b'], ⟨0, 2, 2⟩⟩ rfl,
    h.2.1 ⟨⟨⟨0, 1, 1⟩, ⟨0, 3, 3⟩⟩, ['a', 'b']⟩ ⟨" ab".data, [], ⟨0, 3, 3⟩⟩ rfl,
    h2.2.2 ⟨⟨⟨0, 1, 1⟩, ⟨0, 3, 3⟩⟩, ['a', 'b']⟩ ⟨" ab".data, [], ⟨0, 3, 3⟩⟩ rfl⟩

/-- C6: evaluation of parse_expr_str on unterminated literals.  A literal
that hits end of input without a closing quote yields a fatal Error with a
location, and a raw newline before the closing quote yields a fatal Error
with a location; but a literal containing an unrecognized escape (here
backslash-z) panics at the todo before the unterminated-string handling can
run, so the claimed property fails on that input. -/
theorem c6_unterminated_string_outcomes :
    (parse_expr_str 100 (mkTok "\"abc")).1 =
      PResult.fatal ⟨"Expected closing quote", ⟨0, 1, 1⟩⟩ ∧
    (parse_expr_str 100 (mkTok "\"a\nb\"")).1 =
      PResult.fatal ⟨"unterminated string", ⟨0, 1, 1⟩⟩ ∧
    (parse_expr_str 100 (mkTok "\"\\z")).1 = PResult.panicked "not yet implemented: error" :=
  ⟨rfl, rfl, rfl⟩

/-- C7: match_word succeeds exactly when the literal matches
character-for-character at the whitespace-skipped cursor and the character
immediately following the match is whitespace or end of input; in particular
the word if does not match the text ifx, but matches the texts if-space and
if alone. -/
theorem c7_match_word_word_boundary :
    (∀ s st, (match_word s st).1 = isWordAt s (shimmy st).rest) ∧
    (match_word ['i', 'f'] (mkTok "ifx")).1 = false ∧
    (match_word ['i', 'f'] (mkTok "if ")).1 = true ∧
    (match_word ['i', 'f'] (mkTok "if")).1 = true :=
  ⟨match_word_spec, rfl, rfl, rfl⟩

/-- C8 counterexample: peek on a source starting with a space moves the
cursor Location from the origin to byte index 1 (it commits the whitespace
skip), so peek-style operations do mutate the cursor Location when leading
whitespace is present. -/
theorem c8_counterexample :
    (peek (mkTok " a")).2.loc = ⟨0, 1, 1⟩ ∧
    (mkTok " a").loc = ⟨0, 0, 0⟩ ∧
    (⟨0, 1, 1⟩ : Location) ≠ (⟨0, 0, 0⟩ : Location) :=
  ⟨rfl, rfl, by decide⟩

/-- C8 (amended): the peek-style operations peek, peek_str, peek_while,
peek_word and match_word leave the tokenizer exactly at the shimmied state -
they mutate the cursor only by committing the leading-whitespace skip; when a
consume-style operation (consume, consume_while, consume_word) returns a
token, the final cursor location is the end of the token's span, whose start
is the whitespace-skipped initial location (the cursor advanced by exactly
the length of the match). -/
theorem c8_cursor_discipline (s : List Char) (f : Char → Bool) (st : Tokenizer) :
    (peek st).2 = shimmy st ∧
    (peek_str s st).2 = shimmy st ∧
    (peek_while f st).2 = shimmy st ∧
    (peek_word st).2 = shimmy st ∧
    (match_word s st).2 = shimmy st ∧
    (∀ t st', consume s st = (Scan.found t, st') →
      st'.loc = t.span.stop ∧ t.span.start = (shimmy st).loc) ∧
    (∀ t st', consume_while f st = (Scan.found t, st') →
      st'.loc = t.span.stop ∧ t.span.start = (shimmy st).loc) ∧
    (∀ t st', consume_word s st = (Scan.found t, st') →
      st'.loc = t.span.stop ∧ t.span.start = (shimmy st).loc) :=
  ⟨peek_state st, peek_str_state s st, peek_while_state f st, peek_word_state st,
   match_word_state s st,
   fun t st' h => consume_found s st t st' h,
   fun t st' h => consume_while_found f st t st' h,
   fun t st' h => consume_word_found s st t st' h⟩

/-- C8 witness: the amended theorem applied on the source holding a space
then ab: the peek operations land on the shimmied state and the consume
operations land on the end of the returned span, which starts at the
whitespace-skipped location. -/
theorem c8_witness :
    (peek (mkTok " ab")).2 = shimmy (mkTok " ab") ∧
    ((⟨" ab".data, ['b'], ⟨0, 2, 2⟩⟩ : Tokenizer).loc =
        (⟨⟨0, 1, 1⟩, ⟨0, 2, 2⟩⟩ : Span).stop ∧
      (⟨⟨0, 1, 1⟩, ⟨0, 2, 2⟩⟩ : Span).start = (shimmy (mkTok " ab")).loc) ∧
    ((⟨" ab".data, [], ⟨0, 3, 3⟩⟩ : Tokenizer).loc =
        (⟨⟨0, 1, 1⟩, ⟨0, 3, 3⟩⟩ : Span).stop ∧
      (⟨⟨0, 1, 1⟩, ⟨0, 3, 3⟩⟩ : Span).start = (shimmy (mkTok " ab")).loc) := by
  have h := c8_cursor_discipline ['a'] char_is_ident (mkTok " ab")
  have h2 := c8_cursor_discipline ['a', 'b'] char_is_ident (mkTok " ab")
  exact ⟨h.1,
    h.2.2.2.2.2.1 ⟨⟨⟨0, 1, 1⟩, ⟨0, 2, 2⟩⟩, ['a']⟩ ⟨" ab".data, ['b'], ⟨0, 2, 2⟩⟩ rfl,
    h2.2.2.2.2.2.2.2 ⟨⟨⟨0, 1, 1⟩, ⟨0, 3, 3⟩⟩, ['a', 'b']⟩ ⟨" ab".data, [], ⟨0, 3, 3⟩⟩ rfl⟩

/-- C9: parsing the function-type source text as a Type yields a Func whose
FnType has exactly the two arguments Name int and Ptr Ptr Name char, and the
return type Name int. -/
theorem c9_function_type_example :
    (parse_type 32 (mkTok "(int,char**)int")).1 =
      PResult.ok (.func (.mk
        [.name ⟨⟨⟨0, 1, 1⟩, ⟨0, 4, 4⟩⟩, ['i', 'n', 't']⟩,
         .ptr (.ptr (.name ⟨⟨⟨0, 5, 5⟩, ⟨0, 9, 9⟩⟩, ['c', 'h', 'a', 'r']⟩))]
        (some (.name ⟨⟨⟨0, 12, 12⟩, ⟨0, 15, 15⟩⟩, ['i', 'n', 't']⟩)))) :=
  rfl

/-- C10: parse_fn_type accepts a trailing comma - on the argument list
holding int and a trailing comma it returns a FnType with exactly the one
argument Name int and no return type. -/
theorem c10_trailing_comma_fn_type :
    (parse_fn_type 32 (mkTok "(int,)")).1 =
      PResult.ok (.mk [.name ⟨⟨⟨0, 1, 1⟩, ⟨0, 4, 4⟩⟩, ['i', 'n', 't']⟩] none) :=
  rfl

end ParseRs
